import Mathlib

/-!
Shallow embedding of `src/main.rs` of `dht-inspect`: a command-line Kademlia
DHT lookup orchestrator.  The program issues an optional sequence of
prepopulating `FIND_NODE` queries followed by a single `GET_PROVIDERS` query
and reacts to two independent event streams (the litep2p network-transport
stream and the Kademlia DHT stream) inside a `tokio::select!` loop
(`main`, lines 105-159 of `src/main.rs`).

The embedding models:
  * `parse_key` / `hex::decode` (lines 34-37) over characters of the input
    string (for hexadecimal digits, bytes and characters coincide; a
    non-ASCII character is an invalid hex byte in both views);
  * the orchestrator state (lines 84-103): the two `Option<QueryId>` fields,
    the prepopulation counter, the two peer `HashSet`s as `Finset`s, and the
    Kademlia handle's fresh-query-identifier supply as a counter;
  * one iteration of the event loop as a function from a state and one
    incoming event to a step result (continue / success / failure);
  * whole runs as folds of the step function over a list of events, with a
    ghost log of which query identifiers have received a resolution event,
    used to express "pending resolution".

Wall-clock time (`Instant`, the "Time spent" line of `print_statistics`) and
the actual network are outside the embedding; the statistics report is
modelled by the two peer-set cardinalities it prints.  Random `FIND_NODE`
targets (`PeerId::random()`) are modelled by an oracle `rand` indexed by the
query identifier the command receives.
-/

/- Query correlation identifiers (litep2p `QueryId`) are modelled as plain
naturals throughout; fresh ones come from a counter in the state. -/

/-- Opaque network-participant identifier (litep2p `PeerId`). -/
abbrev PeerId := Nat

/-- Opaque provider record (litep2p `ContentProvider`). -/
abbrev ContentProvider := Nat

/-- A Kademlia record key (litep2p `RecordKey`): a byte vector. -/
abbrev KademliaKey := List Nat

/-- `RecordKey::new(&bytes)`: wraps the byte vector. -/
def KademliaKey.new (bytes : List Nat) : KademliaKey := bytes

/-- Error type of `hex::decode` (`hex::FromHexError`); the variants the
`decode` path can produce. -/
inductive FromHexError where
  | InvalidHexCharacter (c : Char) (index : Nat)
  | OddLength
deriving DecidableEq

/-- `hex::val`: the value of one hexadecimal digit, `none` for any other
character. -/
def hexVal (c : Char) : Option Nat :=
  if 'a' ≤ c ∧ c ≤ 'f' then some (c.toNat - 'a'.toNat + 10)
  else if 'A' ≤ c ∧ c ≤ 'F' then some (c.toNat - 'A'.toNat + 10)
  else if '0' ≤ c ∧ c ≤ '9' then some (c.toNat - '0'.toNat)
  else none

/-- The chunks-of-two decoding loop of `hex::decode`, reporting the first
invalid character (the byte of a pair at even index `i`, its partner at
`i + 1`).  The dangling one-character case is unreachable: `hex::decode`
checks the length is even before this loop runs; the filler keeps the
function total. -/
def hexDecodeAux : List Char → Nat → Except FromHexError (List Nat)
  | [], _ => .ok []
  | [_], _ => .error .OddLength
  | c1 :: c2 :: rest, i =>
    match hexVal c1 with
    | none => .error (.InvalidHexCharacter c1 i)
    | some v1 =>
      match hexVal c2 with
      | none => .error (.InvalidHexCharacter c2 (i + 1))
      | some v2 =>
        match hexDecodeAux rest (i + 2) with
        | .ok bs => .ok ((v1 * 16 + v2) :: bs)
        | .error e => .error e

/-- `hex::decode`: odd-length input is rejected up front, then the input is
decoded two digits per byte. -/
def hex_decode (s : String) : Except FromHexError (List Nat) :=
  if s.data.length % 2 ≠ 0 then .error .OddLength
  else hexDecodeAux s.data 0

/-- `parse_key` (lines 34-37): decode a Kademlia key from a hex string. -/
def parse_key (hex : String) : Except FromHexError KademliaKey :=
  (hex_decode hex).map (fun bytes => KademliaKey.new bytes)

/-- The command-line arguments the orchestrator state machine depends on
(`Args`, lines 40-54).  The bootnode multiaddress and the Kademlia protocol
name only configure the unmodelled network layer and are omitted. -/
structure Args where
  provider_key : KademliaKey
  prepopulate : Nat
deriving DecidableEq

/-- The DHT-stream events the loop distinguishes (litep2p `KademliaEvent`);
`OtherKad` stands for every other variant, which the catch-all arm only
logs (line 153-155). -/
inductive KademliaEvent where
  | FindNodeSuccess (query_id : Nat) (target : PeerId) (peers : List PeerId)
  | GetProvidersSuccess (query_id : Nat) (provided_key : KademliaKey)
      (providers : List ContentProvider)
  | QueryFailed (query_id : Nat)
  | RoutingTableUpdate (peers : List PeerId)
  | OtherKad
deriving DecidableEq

/-- The transport-stream events (litep2p `Litep2pEvent`); the
`ConnectionEstablished` endpoint field is matched and discarded by the code
and omitted here; `OtherNet` stands for every other variant. -/
inductive Litep2pEvent where
  | ConnectionEstablished (peer : PeerId)
  | OtherNet
deriving DecidableEq

/-- A DHT command issued through the Kademlia handle (§6 of the spec). -/
inductive Command where
  | find_node (target : PeerId)
  | get_providers (key : KademliaKey)
deriving DecidableEq

/-- The ways `main` returns an error. -/
inductive RunError where
  | kademliaTerminated
  | findNodeFailed
  | getProvidersFailed
deriving DecidableEq

/-- The mutable loop state of `main` (lines 84-103).  `next_query_id` models
the Kademlia handle's supply of fresh query identifiers: a command issued
when the counter is `n` receives identifier `n`. -/
structure OrchestratorState where
  find_node_query : Option Nat
  get_providers_query : Option Nat
  iterations : Nat
  discovered_peers : Finset PeerId
  contacted_peers : Finset PeerId
  next_query_id : Nat
deriving DecidableEq

/-- The content of `print_statistics` (lines 162-167) other than the
wall-clock "Time spent" line: the cardinalities of the two peer sets. -/
structure Stats where
  discovered : Nat
  contacted : Nat
deriving DecidableEq

/-- The statistics report accumulated in a state. -/
def statisticsReport (s : OrchestratorState) : Stats :=
  ⟨s.discovered_peers.card, s.contacted_peers.card⟩

/-- Result of processing one event in the loop: continue with a new state
after issuing the listed commands (each paired with the `QueryId` the handle
returned for it), or terminate.  `success` is `return Ok(())` after printing
statistics and providers; `failure` is `return Err(..)`, with the statistics
report when `print_statistics` ran before the return. -/
inductive StepResult where
  | cont (s : OrchestratorState) (cmds : List (Nat × Command))
  | success (report : Stats) (providers : List ContentProvider)
  | failure (report : Option Stats) (err : RunError)
deriving DecidableEq

/-- Initialization (lines 84-103): issue the first command before entering
the event loop.  `rand n` models the `PeerId::random()` target of the
`find_node` call that receives query identifier `n`. -/
def init (args : Args) (rand : Nat → PeerId) :
    OrchestratorState × List (Nat × Command) :=
  let s : OrchestratorState :=
    { find_node_query := none
      get_providers_query := none
      iterations := args.prepopulate
      discovered_peers := ∅
      contacted_peers := ∅
      next_query_id := 0 }
  if 0 < s.iterations then
    ({ s with iterations := s.iterations - 1
              find_node_query := some s.next_query_id
              next_query_id := s.next_query_id + 1 },
     [(s.next_query_id, Command.find_node (rand s.next_query_id))])
  else
    ({ s with get_providers_query := some s.next_query_id
              next_query_id := s.next_query_id + 1 },
     [(s.next_query_id, Command.get_providers args.provider_key)])

/-- The `litep2p.next_event()` select arm (lines 107-112).  Only
`Some(ConnectionEstablished { .. })` has an effect; every other outcome —
including the stream ending (`None`) — falls into the `_ => {}` arm and is
ignored. -/
def handleNetEvent (s : OrchestratorState) : Option Litep2pEvent → StepResult
  | some (.ConnectionEstablished peer) =>
    .cont { s with contacted_peers := insert peer s.contacted_peers } []
  | _ => .cont s []

/-- The `kademlia_handle.next()` select arm (lines 113-157).  `none` is the
DHT stream ending (`return Err("libp2p Kademlia terminated")`, no
statistics).  The match mirrors the source arms in order; an event whose
guard fails falls through to the logging catch-all and leaves everything
unchanged. -/
def handleKadEvent (args : Args) (rand : Nat → PeerId) (s : OrchestratorState) :
    Option KademliaEvent → StepResult
  | none => .failure none .kademliaTerminated
  | some (.FindNodeSuccess query_id _ _) =>
    if some query_id = s.find_node_query then
      if 0 < s.iterations then
        .cont { s with iterations := s.iterations - 1
                       find_node_query := some s.next_query_id
                       next_query_id := s.next_query_id + 1 }
          [(s.next_query_id, Command.find_node (rand s.next_query_id))]
      else
        .cont { s with get_providers_query := some s.next_query_id
                       next_query_id := s.next_query_id + 1 }
          [(s.next_query_id, Command.get_providers args.provider_key)]
    else
      .cont s []
  | some (.GetProvidersSuccess query_id provided_key providers) =>
    if some query_id = s.get_providers_query ∧ provided_key = args.provider_key then
      .success (statisticsReport s) providers
    else
      .cont s []
  | some (.QueryFailed query_id) =>
    if some query_id = s.find_node_query then
      .failure (some (statisticsReport s)) .findNodeFailed
    else if some query_id = s.get_providers_query then
      .failure (some (statisticsReport s)) .getProvidersFailed
    else
      .cont s []
  | some (.RoutingTableUpdate peers) =>
    .cont { s with
            discovered_peers := peers.foldl (fun d p => insert p d) s.discovered_peers }
      []
  | some .OtherKad => .cont s []

/-- One firing of the `tokio::select!`: an event from one of the two
streams (`none` = that stream ended). -/
inductive LoopEvent where
  | net (e : Option Litep2pEvent)
  | kad (e : Option KademliaEvent)
deriving DecidableEq

/-- One iteration of the event loop from a running state. -/
def stepL (args : Args) (rand : Nat → PeerId) (s : OrchestratorState) :
    LoopEvent → StepResult
  | .net e => handleNetEvent s e
  | .kad e => handleKadEvent args rand s e

/-- A run in progress or terminated. -/
inductive RunState where
  | running (s : OrchestratorState)
  | succeeded (report : Stats) (providers : List ContentProvider)
  | failed (report : Option Stats) (err : RunError)
deriving DecidableEq

/-- Process one event: a terminated run absorbs further events. -/
def stepRun (args : Args) (rand : Nat → PeerId) : RunState → LoopEvent → RunState
  | .running s, e =>
    match stepL args rand s e with
    | .cont s1 _ => .running s1
    | .success report providers => .succeeded report providers
    | .failure report err => .failed report err
  | r, _ => r

/-- Process a list of events in order. -/
def runEvents (args : Args) (rand : Nat → PeerId) (r : RunState)
    (evs : List LoopEvent) : RunState :=
  evs.foldl (stepRun args rand) r

/-- The query identifier a DHT event resolves (its terminal report), if
any: `FindNodeSuccess`, `GetProvidersSuccess` and `QueryFailed` are the
terminal events of the two commands the orchestrator issues. -/
def resolutionTarget : KademliaEvent → Option Nat
  | .FindNodeSuccess q _ _ => some q
  | .GetProvidersSuccess q _ _ => some q
  | .QueryFailed q => some q
  | _ => none

/-- A run state together with a ghost log of the query identifiers for which
a resolution event has been delivered while the run was in progress. -/
structure GRun where
  rs : RunState
  resolved : List Nat
deriving DecidableEq

/-- Ghost-instrumented step: alongside `stepRun`, record the resolution
target of a processed DHT event. -/
def gstep (args : Args) (rand : Nat → PeerId) (g : GRun) (e : LoopEvent) : GRun :=
  match g.rs with
  | .running _ =>
    { rs := stepRun args rand g.rs e
      resolved :=
        match e with
        | .kad (some ev) =>
          match resolutionTarget ev with
          | some q => g.resolved ++ [q]
          | none => g.resolved
        | _ => g.resolved }
  | _ => g

/-- Ghost-instrumented run over a list of events. -/
def grun (args : Args) (rand : Nat → PeerId) (g : GRun) (evs : List LoopEvent) : GRun :=
  evs.foldl (gstep args rand) g

/-- The instrumented initial run state. -/
def ginit (args : Args) (rand : Nat → PeerId) : GRun :=
  { rs := .running (init args rand).1, resolved := [] }

/-- An event is well formed at an instrumented state when any query it
resolves was issued earlier (its identifier is below the fresh-identifier
counter) and has not been resolved before: the DHT layer delivers at most
one terminal event per issued query.  Events arriving after termination are
not processed and are vacuously well formed. -/
def wfEvent (g : GRun) (e : LoopEvent) : Bool :=
  match g.rs, e with
  | .running s, .kad (some ev) =>
    match resolutionTarget ev with
    | some q => decide (q < s.next_query_id) && decide (q ∉ g.resolved)
    | none => true
  | _, _ => true

/-- Well-formedness of a whole event list, checked against the evolving
instrumented state. -/
def WFtrace (args : Args) (rand : Nat → PeerId) : GRun → List LoopEvent → Bool
  | _, [] => true
  | g, e :: rest => wfEvent g e && WFtrace args rand (gstep args rand g e) rest

/-- The query identifiers pending resolution: issued (below the counter) but
with no resolution event delivered yet.  Empty after termination. -/
def pendingList (g : GRun) : List Nat :=
  match g.rs with
  | .running s => (List.range s.next_query_id).filter (fun q => decide (q ∉ g.resolved))
  | _ => []

example : (init ⟨[171], 0⟩ (fun _ => 7)).2 = [(0, Command.get_providers [171])] := by decide

example : (init ⟨[171], 2⟩ (fun _ => 7)).2 = [(0, Command.find_node 7)] := by decide

example :
    pendingList (grun ⟨[171], 1⟩ (fun _ => 0) (ginit ⟨[171], 1⟩ (fun _ => 0))
      [LoopEvent.kad (some (KademliaEvent.FindNodeSuccess 0 0 [])),
       LoopEvent.kad (some (KademliaEvent.FindNodeSuccess 0 0 []))]) = [1, 2] := by decide

/-- Invariant of a running instrumented state: identifiers of delivered
resolutions were issued, and every issued identifier other than the most
recently issued one has already been resolved — so at most the latest
query is pending. -/
def PendingInv (s : OrchestratorState) (resolved : List Nat) : Prop :=
  0 < s.next_query_id ∧
  (∀ q ∈ resolved, q < s.next_query_id) ∧
  (∀ q, q < s.next_query_id → q ∉ resolved → q = s.next_query_id - 1)

/-- The invariant lifted to instrumented run states; trivial after
termination. -/
def PendingInvG (g : GRun) : Prop :=
  match g.rs with
  | .running s => PendingInv s g.resolved
  | _ => True

/-- Concrete arguments for witnesses: key `0xAB`, one prepopulation
iteration. -/
def exArgs : Args := ⟨[171], 1⟩

/-- Concrete random-target oracle for witnesses. -/
def exRand : Nat → PeerId := fun _ => 0

/-- The state reached from `init exArgs` after `FindNodeSuccess` for query 0:
the GET_PROVIDERS query (identifier 1) is active, and the identifier of the
already-resolved FIND_NODE query is still stored in `find_node_query`. -/
def exS1 : OrchestratorState :=
  { find_node_query := some 0
    get_providers_query := some 1
    iterations := 0
    discovered_peers := ∅
    contacted_peers := ∅
    next_query_id := 2 }

/-- A mid-prepopulation state with two iterations left. -/
def exS5 : OrchestratorState :=
  { find_node_query := some 0
    get_providers_query := none
    iterations := 2
    discovered_peers := ∅
    contacted_peers := ∅
    next_query_id := 1 }

/-- A prepopulation state whose counter has reached zero. -/
def exS5z : OrchestratorState :=
  { find_node_query := some 0
    get_providers_query := none
    iterations := 0
    discovered_peers := ∅
    contacted_peers := ∅
    next_query_id := 1 }

example : parse_key "ab" = Except.ok [171] := rfl

example : parse_key "abc" = Except.error FromHexError.OddLength := rfl

example : parse_key "zb" = Except.error (FromHexError.InvalidHexCharacter 'z' 0) := rfl

/-- `HashSet`-style repeated insertion is union with the deduplicated list
of inserted elements (lines 149-151). -/
theorem foldl_insert_eq_union (l : List PeerId) (d : Finset PeerId) :
    l.foldl (fun d p => insert p d) d = d ∪ l.toFinset := by
  induction l generalizing d with
  | nil => simp
  | cons a t ih =>
    simp only [List.foldl_cons, ih, List.toFinset_cons]
    rw [Finset.insert_union, Finset.union_insert]

/-- C4: for every prepopulation count `N ≥ 0`, initialization issues exactly
one command — `find_node` for the random target (identifier 0) when `N > 0`,
entering the prepopulating phase with counter `N - 1`, and `get_providers`
for the requested key when `N = 0`, entering the awaiting-providers
phase. -/
theorem c4_init_one_command (args : Args) (rand : Nat → PeerId) :
    (init args rand).2
      = (if 0 < args.prepopulate then [(0, Command.find_node (rand 0))]
         else [(0, Command.get_providers args.provider_key)]) ∧
    (init args rand).1.find_node_query
      = (if 0 < args.prepopulate then some 0 else none) ∧
    (init args rand).1.get_providers_query
      = (if 0 < args.prepopulate then none else some 0) ∧
    (init args rand).1.iterations = args.prepopulate - 1 ∧
    (init args rand).1.next_query_id = 1 := by
  by_cases h : 0 < args.prepopulate
  · simp [init, h]
  · simp [init, h]
    omega

/-- C5: a `FindNodeSuccess` matching the active FIND_NODE identifier
decreases the counter by exactly one and issues another `find_node` while
the counter is positive; arriving with the counter at zero it issues the
`get_providers` command for the requested key instead. -/
theorem c5_findnode_progress (args : Args) (rand : Nat → PeerId)
    (s : OrchestratorState) (q : Nat) (target : PeerId) (peers : List PeerId)
    (hmatch : some q = s.find_node_query) :
    (0 < s.iterations →
      handleKadEvent args rand s (some (.FindNodeSuccess q target peers))
        = StepResult.cont
            { s with iterations := s.iterations - 1
                     find_node_query := some s.next_query_id
                     next_query_id := s.next_query_id + 1 }
            [(s.next_query_id, Command.find_node (rand s.next_query_id))]) ∧
    (s.iterations = 0 →
      handleKadEvent args rand s (some (.FindNodeSuccess q target peers))
        = StepResult.cont
            { s with get_providers_query := some s.next_query_id
                     next_query_id := s.next_query_id + 1 }
            [(s.next_query_id, Command.get_providers args.provider_key)]) := by
  constructor
  · intro hpos
    simp only [handleKadEvent]
    rw [if_pos hmatch, if_pos hpos]
  · intro hz
    simp only [handleKadEvent]
    rw [if_pos hmatch, if_neg (by omega)]

/-- Witness for C5 at concrete states: with two iterations left the matching
success issues `find_node` and decrements the counter; with the counter at
zero it issues `get_providers` for the key. -/
theorem c5_witness :
    handleKadEvent exArgs exRand exS5 (some (.FindNodeSuccess 0 0 []))
      = StepResult.cont ⟨some 1, none, 1, ∅, ∅, 2⟩ [(1, Command.find_node (exRand 1))] ∧
    handleKadEvent exArgs exRand exS5z (some (.FindNodeSuccess 0 0 []))
      = StepResult.cont ⟨some 0, some 1, 0, ∅, ∅, 2⟩
          [(1, Command.get_providers exArgs.provider_key)] :=
  ⟨(c5_findnode_progress exArgs exRand exS5 0 0 [] rfl).1 (by decide),
   (c5_findnode_progress exArgs exRand exS5z 0 0 [] rfl).2 rfl⟩

/-- C6: a `GetProvidersSuccess` terminates the run successfully exactly when
its identifier equals the active GET_PROVIDERS identifier and its key equals
the requested key; otherwise it is discarded without error and the loop
continues unchanged. -/
theorem c6_getproviders_success (args : Args) (rand : Nat → PeerId)
    (s : OrchestratorState) (q : Nat) (key : KademliaKey)
    (ps : List ContentProvider) :
    ((∃ report, handleKadEvent args rand s (some (.GetProvidersSuccess q key ps))
        = StepResult.success report ps)
      ↔ (some q = s.get_providers_query ∧ key = args.provider_key)) ∧
    (¬(some q = s.get_providers_query ∧ key = args.provider_key) →
      handleKadEvent args rand s (some (.GetProvidersSuccess q key ps))
        = StepResult.cont s []) := by
  constructor
  · constructor
    · rintro ⟨r, hr⟩
      by_contra hc
      simp only [handleKadEvent] at hr
      rw [if_neg hc] at hr
      exact StepResult.noConfusion hr
    · intro hc
      refine ⟨statisticsReport s, ?_⟩
      simp only [handleKadEvent]
      rw [if_pos hc]
  · intro hc
    simp only [handleKadEvent]
    rw [if_neg hc]

/-- Witness for C6: at the state with GET_PROVIDERS identifier 1 active, a
`GetProvidersSuccess` with identifier 0 (right key) is discarded and the
loop continues. -/
theorem c6_witness :
    handleKadEvent exArgs exRand exS1 (some (.GetProvidersSuccess 0 [171] []))
      = StepResult.cont exS1 [] :=
  (c6_getproviders_success exArgs exRand exS1 0 [171] []).2 (by decide)

/-- C7: a `QueryFailed` carrying the identifier stored for the active query
(in either phase) terminates the run with a query-failure error, carrying
the statistics report accumulated so far; a `failure` result issues no
command.  (The report's wall-clock "Time spent" line is outside the
embedding.) -/
theorem c7_query_failed (args : Args) (rand : Nat → PeerId)
    (s : OrchestratorState) (q : Nat)
    (h : some q = s.find_node_query ∨ some q = s.get_providers_query) :
    ∃ err, handleKadEvent args rand s (some (.QueryFailed q))
        = StepResult.failure (some (statisticsReport s)) err ∧
      (err = RunError.findNodeFailed ∨ err = RunError.getProvidersFailed) := by
  by_cases hfn : some q = s.find_node_query
  · refine ⟨.findNodeFailed, ?_, Or.inl rfl⟩
    simp only [handleKadEvent]
    rw [if_pos hfn]
  · have hgp : some q = s.get_providers_query := h.resolve_left hfn
    refine ⟨.getProvidersFailed, ?_, Or.inr rfl⟩
    simp only [handleKadEvent]
    rw [if_neg hfn, if_pos hgp]

/-- Witness for C7: failing the active GET_PROVIDERS query (identifier 1)
terminates the run with the accumulated report. -/
theorem c7_witness :
    ∃ err, handleKadEvent exArgs exRand exS1 (some (.QueryFailed 1))
        = StepResult.failure (some (statisticsReport exS1)) err ∧
      (err = RunError.findNodeFailed ∨ err = RunError.getProvidersFailed) :=
  c7_query_failed exArgs exRand exS1 1 (Or.inr rfl)

/-- C8: `RoutingTableUpdate` and `ConnectionEstablished` only grow the
Discovered resp. Contacted sets (insertion-only, idempotent on repeats,
duplicate-free by the `Finset` no-duplicate invariant) and neither changes
any other state field nor issues a command, as the two `cont` equations
show. -/
theorem c8_peer_sets (args : Args) (rand : Nat → PeerId)
    (s : OrchestratorState) (peers : List PeerId) (peer : PeerId) :
    (handleKadEvent args rand s (some (.RoutingTableUpdate peers))
      = StepResult.cont
          { s with discovered_peers := s.discovered_peers ∪ peers.toFinset } []) ∧
    (handleNetEvent s (some (.ConnectionEstablished peer))
      = StepResult.cont
          { s with contacted_peers := insert peer s.contacted_peers } []) ∧
    s.discovered_peers ⊆ s.discovered_peers ∪ peers.toFinset ∧
    s.contacted_peers ⊆ insert peer s.contacted_peers ∧
    (s.discovered_peers ∪ peers.toFinset) ∪ peers.toFinset
      = s.discovered_peers ∪ peers.toFinset ∧
    insert peer (insert peer s.contacted_peers) = insert peer s.contacted_peers ∧
    (s.discovered_peers ∪ peers.toFinset).val.Nodup ∧
    (insert peer s.contacted_peers).val.Nodup := by
  refine ⟨?_, rfl, Finset.subset_union_left, Finset.subset_insert _ _, ?_,
    Finset.insert_idem _ _, Finset.nodup _, Finset.nodup _⟩
  · simp only [handleKadEvent]
    rw [foldl_insert_eq_union]
  · rw [Finset.union_assoc, Finset.union_self]

/-- Counterexample to C1: the code does not clear `find_node_query` when
the GET_PROVIDERS query becomes active.  Starting from `init exArgs`
(one prepopulation iteration), the matching `FindNodeSuccess` for query 0
activates GET_PROVIDERS query 1 and reaches `exS1`; a subsequent
`QueryFailed` carrying the superseded FIND_NODE identifier 0 — which is not
the active identifier 1 — is not ignored: it terminates the run with a
FIND_NODE-failure error (match arm at lines 140-143). -/
theorem c1_counterexample :
    (grun exArgs exRand (ginit exArgs exRand)
        [LoopEvent.kad (some (KademliaEvent.FindNodeSuccess 0 0 []))]).rs
      = RunState.running exS1 ∧
    exS1.get_providers_query = some 1 ∧
    (0 : Nat) ≠ 1 ∧
    stepRun exArgs exRand (RunState.running exS1)
        (LoopEvent.kad (some (KademliaEvent.QueryFailed 0)))
      = RunState.failed (some ⟨0, 0⟩) RunError.findNodeFailed := by
  refine ⟨by decide, rfl, by decide, by decide⟩

/-- C1 amended: an event whose query identifier matches neither the stored
FIND_NODE identifier nor the stored GET_PROVIDERS identifier leaves the
state unchanged, issues no command and does not terminate the run.  (The
identifier of the last FIND_NODE query is retained after GET_PROVIDERS
becomes active, so a `QueryFailed` carrying it still terminates the run, as
`c1_counterexample` shows; only identifiers matching neither stored field
are ignored.) -/
theorem c1_amended_unknown_id_ignored (args : Args) (rand : Nat → PeerId)
    (s : OrchestratorState) (ev : KademliaEvent) (q : Nat)
    (hq : resolutionTarget ev = some q)
    (hfn : some q ≠ s.find_node_query) (hgp : some q ≠ s.get_providers_query) :
    handleKadEvent args rand s (some ev) = StepResult.cont s [] := by
  cases ev with
  | FindNodeSuccess q2 target peers =>
    simp only [resolutionTarget, Option.some.injEq] at hq
    subst hq
    simp only [handleKadEvent]
    rw [if_neg hfn]
  | GetProvidersSuccess q2 key ps =>
    simp only [resolutionTarget, Option.some.injEq] at hq
    subst hq
    simp only [handleKadEvent]
    rw [if_neg (fun hc => hgp hc.1)]
  | QueryFailed q2 =>
    simp only [resolutionTarget, Option.some.injEq] at hq
    subst hq
    simp only [handleKadEvent]
    rw [if_neg hfn, if_neg hgp]
  | RoutingTableUpdate peers => exact absurd hq (by simp [resolutionTarget])
  | OtherKad => exact absurd hq (by simp [resolutionTarget])

/-- Witness for the amended C1: at `exS1` (stored identifiers 0 and 1), a
`QueryFailed` for the unknown identifier 5 is ignored. -/
theorem c1_witness :
    handleKadEvent exArgs exRand exS1 (some (KademliaEvent.QueryFailed 5))
      = StepResult.cont exS1 [] :=
  c1_amended_unknown_id_ignored exArgs exRand exS1 (KademliaEvent.QueryFailed 5) 5
    rfl (by decide) (by decide)

/-- Counterexample to C3: at `exS1` the GET_PROVIDERS query (identifier 1)
is outstanding, yet the network-transport event stream ending (`none` from
`litep2p.next_event()`) is swallowed by the `_ => {}` arm (line 111): the
run continues unchanged instead of terminating with an infrastructure
failure. -/
theorem c3_counterexample :
    exS1.get_providers_query = some 1 ∧
    stepRun exArgs exRand (RunState.running exS1) (LoopEvent.net none)
      = RunState.running exS1 := by
  refine ⟨rfl, by decide⟩

/-- C3 amended: the stream whose ending aborts the run is the DHT event
stream, not the network-transport stream.  In every state, the transport
stream ending is ignored and the loop continues, while the DHT stream
ending terminates the run immediately with the infrastructure error
("libp2p Kademlia terminated"), without a statistics report, independently
of the other stream. -/
theorem c3_amended_stream_end (args : Args) (rand : Nat → PeerId)
    (s : OrchestratorState) :
    stepRun args rand (RunState.running s) (LoopEvent.net none)
      = RunState.running s ∧
    stepRun args rand (RunState.running s) (LoopEvent.kad none)
      = RunState.failed none RunError.kademliaTerminated := by
  exact ⟨rfl, rfl⟩

/-- The decoding loop succeeds exactly on lists of hexadecimal digits of
even length (fuel-indexed induction over two characters at a time). -/
theorem hexDecodeAux_ok_iff (n : Nat) :
    ∀ (l : List Char) (i : Nat), l.length ≤ n →
      ((∃ bs, hexDecodeAux l i = Except.ok bs) ↔
        (l.length % 2 = 0 ∧ ∀ c ∈ l, hexVal c ≠ none)) := by
  induction n with
  | zero =>
    intro l i h
    have hl : l = [] := List.eq_nil_of_length_eq_zero (Nat.le_zero.mp h)
    subst hl
    simp [hexDecodeAux]
  | succ n ih =>
    intro l i h
    match l with
    | [] => simp [hexDecodeAux]
    | [c1] =>
      simp only [hexDecodeAux, List.length_cons, List.length_nil]
      constructor
      · rintro ⟨bs, hbs⟩
        exact Except.noConfusion hbs
      · rintro ⟨he, -⟩
        omega
    | c1 :: c2 :: rest =>
      have hlen : rest.length ≤ n := by
        simp only [List.length_cons] at h
        omega
      simp only [hexDecodeAux]
      cases hv1 : hexVal c1 with
      | none =>
        constructor
        · rintro ⟨bs, hbs⟩
          exact Except.noConfusion hbs
        · rintro ⟨-, hval⟩
          exact absurd hv1 (hval c1 (by simp))
      | some v1 =>
        cases hv2 : hexVal c2 with
        | none =>
          constructor
          · rintro ⟨bs, hbs⟩
            exact Except.noConfusion hbs
          · rintro ⟨-, hval⟩
            exact absurd hv2 (hval c2 (by simp))
        | some v2 =>
          cases hr : hexDecodeAux rest (i + 2) with
          | ok bs =>
            have hrest := (ih rest (i + 2) hlen).mp ⟨bs, hr⟩
            have h1 := hrest.1
            refine iff_of_true ⟨(v1 * 16 + v2) :: bs, rfl⟩ ⟨by simp only [List.length_cons]; omega, ?_⟩
            intro c hc
            rcases List.mem_cons.mp hc with rfl | hc
            · simp [hv1]
            · rcases List.mem_cons.mp hc with rfl | hc
              · simp [hv2]
              · exact hrest.2 c hc
          | error e =>
            constructor
            · rintro ⟨bs, hbs⟩
              exact Except.noConfusion hbs
            · rintro ⟨he, hval⟩
              have heR : rest.length % 2 = 0 := by
                simp only [List.length_cons] at he
                omega
              have : ∃ bs, hexDecodeAux rest (i + 2) = Except.ok bs :=
                (ih rest (i + 2) hlen).mpr
                  ⟨heR, fun c hc => hval c (by simp [hc])⟩
              rcases this with ⟨bs, hbs⟩
              rw [hr] at hbs
              exact Except.noConfusion hbs

/-- `hex::decode` succeeds exactly on even-length strings of hexadecimal
digits. -/
theorem hex_decode_ok_iff (s : String) :
    (∃ bs, hex_decode s = Except.ok bs) ↔
      (s.data.length % 2 = 0 ∧ ∀ c ∈ s.data, hexVal c ≠ none) := by
  unfold hex_decode
  by_cases hpar : s.data.length % 2 = 0
  · rw [if_neg (by omega)]
    exact hexDecodeAux_ok_iff s.data.length s.data 0 le_rfl
  · rw [if_pos hpar]
    constructor
    · rintro ⟨bs, hbs⟩
      exact Except.noConfusion hbs
    · rintro ⟨he, -⟩
      exact absurd he hpar

/-- `parse_key` succeeds exactly when the underlying hex decode does; the
key wraps the decoded bytes. -/
theorem parse_key_ok_iff_decode (s : String) :
    (∃ k, parse_key s = Except.ok k) ↔ (∃ bs, hex_decode s = Except.ok bs) := by
  unfold parse_key
  cases h : hex_decode s with
  | ok bs =>
    simp [h, Except.map, KademliaKey.new]
  | error e =>
    simp [h, Except.map]

/-- C9: `parse_key` returns `Ok` exactly when its input consists of an even
number of hexadecimal digits; the empty string is accepted and yields the
empty key; every other input yields a hex-decoding error (so an invalid key
is rejected while the command line is parsed, before orchestration
starts). -/
theorem c9_parse_key (s : String) :
    ((∃ k, parse_key s = Except.ok k) ↔
      (s.data.length % 2 = 0 ∧ ∀ c ∈ s.data, hexVal c ≠ none)) ∧
    parse_key "" = Except.ok [] := by
  exact ⟨(parse_key_ok_iff_decode s).trans (hex_decode_ok_iff s), rfl⟩

/-- Any continuing step leaves the prepopulation counter unchanged or, only
when it is strictly positive, decrements it by exactly one (the guarded
`iterations -= 1` at lines 120-121). -/
theorem stepL_iterations_le (args : Args) (rand : Nat → PeerId)
    (s : OrchestratorState) (e : LoopEvent) (s1 : OrchestratorState)
    (cmds : List (Nat × Command))
    (h : stepL args rand s e = StepResult.cont s1 cmds) :
    s1.iterations ≤ s.iterations ∧
    (s1.iterations ≠ s.iterations →
      0 < s.iterations ∧ s1.iterations = s.iterations - 1) := by
  cases e with
  | net oe =>
    cases oe with
    | none =>
      simp only [stepL, handleNetEvent, StepResult.cont.injEq] at h
      obtain ⟨rfl, -⟩ := h
      exact ⟨le_refl _, fun hc => absurd rfl hc⟩
    | some ne =>
      cases ne with
      | ConnectionEstablished p =>
        simp only [stepL, handleNetEvent, StepResult.cont.injEq] at h
        obtain ⟨rfl, -⟩ := h
        exact ⟨le_refl _, fun hc => absurd rfl hc⟩
      | OtherNet =>
        simp only [stepL, handleNetEvent, StepResult.cont.injEq] at h
        obtain ⟨rfl, -⟩ := h
        exact ⟨le_refl _, fun hc => absurd rfl hc⟩
  | kad oe =>
    cases oe with
    | none =>
      simp only [stepL, handleKadEvent] at h
      exact StepResult.noConfusion h
    | some ev =>
      cases ev with
      | FindNodeSuccess q t ps =>
        simp only [stepL, handleKadEvent] at h
        split_ifs at h with h1 h2
        · rw [StepResult.cont.injEq] at h
          obtain ⟨rfl, -⟩ := h
          exact ⟨Nat.sub_le _ _, fun _ => ⟨h2, rfl⟩⟩
        · rw [StepResult.cont.injEq] at h
          obtain ⟨rfl, -⟩ := h
          exact ⟨le_refl _, fun hc => absurd rfl hc⟩
        · rw [StepResult.cont.injEq] at h
          obtain ⟨rfl, -⟩ := h
          exact ⟨le_refl _, fun hc => absurd rfl hc⟩
      | GetProvidersSuccess q k ps =>
        simp only [stepL, handleKadEvent] at h
        split_ifs at h with h1
        rw [StepResult.cont.injEq] at h
        obtain ⟨rfl, -⟩ := h
        exact ⟨le_refl _, fun hc => absurd rfl hc⟩
      | QueryFailed q =>
        simp only [stepL, handleKadEvent] at h
        split_ifs at h with h1 h2
        rw [StepResult.cont.injEq] at h
        obtain ⟨rfl, -⟩ := h
        exact ⟨le_refl _, fun hc => absurd rfl hc⟩
      | RoutingTableUpdate ps =>
        simp only [stepL, handleKadEvent, StepResult.cont.injEq] at h
        obtain ⟨rfl, -⟩ := h
        exact ⟨le_refl _, fun hc => absurd rfl hc⟩
      | OtherKad =>
        simp only [stepL, handleKadEvent, StepResult.cont.injEq] at h
        obtain ⟨rfl, -⟩ := h
        exact ⟨le_refl _, fun hc => absurd rfl hc⟩

/-- A successfully terminated run absorbs further events. -/
theorem runEvents_succeeded (args : Args) (rand : Nat → PeerId) (a : Stats)
    (b : List ContentProvider) (evs : List LoopEvent) :
    runEvents args rand (RunState.succeeded a b) evs = RunState.succeeded a b := by
  induction evs with
  | nil => rfl
  | cons e rest ih => exact ih

/-- A failed run absorbs further events. -/
theorem runEvents_failed (args : Args) (rand : Nat → PeerId) (a : Option Stats)
    (b : RunError) (evs : List LoopEvent) :
    runEvents args rand (RunState.failed a b) evs = RunState.failed a b := by
  induction evs with
  | nil => rfl
  | cons e rest ih => exact ih

/-- Along any still-running run, the prepopulation counter never
increases. -/
theorem runEvents_iterations_le (args : Args) (rand : Nat → PeerId) :
    ∀ (evs : List LoopEvent) (t t1 : OrchestratorState),
      runEvents args rand (RunState.running t) evs = RunState.running t1 →
      t1.iterations ≤ t.iterations := by
  intro evs
  induction evs with
  | nil =>
    intro t t1 h
    injection h with hh
    subst hh
    exact le_refl _
  | cons e rest ih =>
    intro t t1 h
    have h2 : runEvents args rand (stepRun args rand (RunState.running t) e) rest
        = RunState.running t1 := h
    cases hstep : stepRun args rand (RunState.running t) e with
    | running t2 =>
      rw [hstep] at h2
      have hle := ih t2 t1 h2
      have hstep2 : t2.iterations ≤ t.iterations := by
        simp only [stepRun] at hstep
        cases hL : stepL args rand t e with
        | cont s1 c =>
          simp only [hL] at hstep
          injection hstep with hh
          subst hh
          exact (stepL_iterations_le args rand t e s1 c hL).1
        | success a b =>
          simp only [hL] at hstep
          exact RunState.noConfusion hstep
        | failure a b =>
          simp only [hL] at hstep
          exact RunState.noConfusion hstep
      exact le_trans hle hstep2
    | succeeded a b =>
      rw [hstep] at h2
      rw [runEvents_succeeded] at h2
      exact RunState.noConfusion h2
    | failed a b =>
      rw [hstep] at h2
      rw [runEvents_failed] at h2
      exact RunState.noConfusion h2

/-- C10: the prepopulation counter is decremented only under the guard that
it is strictly positive — at initialization (`N` becomes `N - 1` only when
`N > 0`) and on each matching `FindNodeSuccess` — so the `usize`
subtraction never underflows, and over any run the counter is monotonically
non-increasing and bottoms out at zero. -/
theorem c10_counter_safety (args : Args) (rand : Nat → PeerId)
    (s : OrchestratorState) (e : LoopEvent) :
    ((0 < args.prepopulate →
        (init args rand).1.iterations = args.prepopulate - 1) ∧
     (args.prepopulate = 0 → (init args rand).1.iterations = 0)) ∧
    (∀ s1 cmds, stepL args rand s e = StepResult.cont s1 cmds →
      s1.iterations ≤ s.iterations ∧
      (s1.iterations ≠ s.iterations →
        0 < s.iterations ∧ s1.iterations = s.iterations - 1)) ∧
    (∀ evs t t1,
      runEvents args rand (RunState.running t) evs = RunState.running t1 →
      t1.iterations ≤ t.iterations) := by
  refine ⟨⟨?_, ?_⟩, ?_, ?_⟩
  · intro hp
    simp [init, hp]
  · intro hp
    simp [init, hp]
  · intro s1 cmds h
    exact stepL_iterations_le args rand s e s1 cmds h
  · intro evs t t1 h
    exact runEvents_iterations_le args rand evs t t1 h

/-- Witness for C10 at concrete inputs: initialization with one iteration
leaves counter 0; a matching success at counter 2 decrements it to 1 under
the positivity guard. -/
theorem c10_witness :
    (init exArgs exRand).1.iterations = exArgs.prepopulate - 1 ∧
    (⟨some 1, none, 1, ∅, ∅, 2⟩ : OrchestratorState).iterations ≤ exS5.iterations ∧
    (0 < exS5.iterations ∧
      (⟨some 1, none, 1, ∅, ∅, 2⟩ : OrchestratorState).iterations
        = exS5.iterations - 1) := by
  have h := c10_counter_safety exArgs exRand exS5
      (LoopEvent.kad (some (KademliaEvent.FindNodeSuccess 0 0 [])))
  have hstep := h.2.1 ⟨some 1, none, 1, ∅, ∅, 2⟩
      [(1, Command.find_node (exRand 1))] (by decide)
  exact ⟨h.1.1 (by decide), hstep.1, hstep.2 (by decide)⟩

/-- Recording a resolution for an already-issued query preserves the
pending-resolution invariant when the counter does not move. -/
theorem pendingInv_extend (s : OrchestratorState) (resolved : List Nat)
    (q : Nat) (h : PendingInv s resolved) (hq1 : q < s.next_query_id) :
    PendingInv s (resolved ++ [q]) := by
  obtain ⟨h1, h2, h3⟩ := h
  refine ⟨h1, ?_, ?_⟩
  · intro r hr
    rcases List.mem_append.mp hr with hr | hr
    · exact h2 r hr
    · rw [List.mem_singleton] at hr
      subst hr
      exact hq1
  · intro r hr hrn
    have hr2 : r ∉ resolved := fun hc => hrn (List.mem_append.mpr (Or.inl hc))
    exact h3 r hr hr2

/-- Resolving the single pending query and issuing one fresh command (the
counter moves up by one) preserves the invariant: the fresh identifier is
the new unique pending one. -/
theorem pendingInv_issue (s s1 : OrchestratorState) (resolved : List Nat)
    (q : Nat) (h : PendingInv s resolved) (hq1 : q < s.next_query_id)
    (hq2 : q ∉ resolved) (hnext : s1.next_query_id = s.next_query_id + 1) :
    PendingInv s1 (resolved ++ [q]) := by
  obtain ⟨h1, h2, h3⟩ := h
  have hq3 : q = s.next_query_id - 1 := h3 q hq1 hq2
  refine ⟨by omega, ?_, ?_⟩
  · intro r hr
    rcases List.mem_append.mp hr with hr | hr
    · have := h2 r hr
      omega
    · rw [List.mem_singleton] at hr
      subst hr
      omega
  · intro r hr hrn
    have hrq : r ≠ q := fun hc => hrn (List.mem_append.mpr (Or.inr (by simp [hc])))
    have hrres : r ∉ resolved := fun hc => hrn (List.mem_append.mpr (Or.inl hc))
    rw [hnext] at hr ⊢
    by_cases hlt : r < s.next_query_id
    · have := h3 r hlt hrres
      omega
    · omega

/-- The invariant only depends on the counter and the resolution log. -/
theorem pendingInv_carry (s s1 : OrchestratorState) (resolved : List Nat)
    (h : PendingInv s resolved) (hnext : s1.next_query_id = s.next_query_id) :
    PendingInv s1 resolved := by
  obtain ⟨h1, h2, h3⟩ := h
  refine ⟨by omega, ?_, ?_⟩
  · intro r hr
    rw [hnext]
    exact h2 r hr
  · intro r hr hrn
    rw [hnext] at hr ⊢
    exact h3 r hr hrn

/-- A continuing step moves the fresh-identifier counter only when the event
is a `FindNodeSuccess` that fires the issuing arm, and then by exactly
one. -/
theorem stepL_next_cases (args : Args) (rand : Nat → PeerId)
    (s : OrchestratorState) (e : LoopEvent) (s1 : OrchestratorState)
    (cmds : List (Nat × Command))
    (h : stepL args rand s e = StepResult.cont s1 cmds) :
    s1.next_query_id = s.next_query_id ∨
    (s1.next_query_id = s.next_query_id + 1 ∧
      ∃ q t ps, e = LoopEvent.kad (some (KademliaEvent.FindNodeSuccess q t ps))) := by
  cases e with
  | net oe =>
    cases oe with
    | none =>
      simp only [stepL, handleNetEvent, StepResult.cont.injEq] at h
      obtain ⟨rfl, -⟩ := h
      exact Or.inl rfl
    | some ne =>
      cases ne with
      | ConnectionEstablished p =>
        simp only [stepL, handleNetEvent, StepResult.cont.injEq] at h
        obtain ⟨rfl, -⟩ := h
        exact Or.inl rfl
      | OtherNet =>
        simp only [stepL, handleNetEvent, StepResult.cont.injEq] at h
        obtain ⟨rfl, -⟩ := h
        exact Or.inl rfl
  | kad oe =>
    cases oe with
    | none =>
      simp only [stepL, handleKadEvent] at h
      exact StepResult.noConfusion h
    | some ev =>
      cases ev with
      | FindNodeSuccess q t ps =>
        simp only [stepL, handleKadEvent] at h
        split_ifs at h with h1 h2
        · rw [StepResult.cont.injEq] at h
          obtain ⟨rfl, -⟩ := h
          exact Or.inr ⟨rfl, q, t, ps, rfl⟩
        · rw [StepResult.cont.injEq] at h
          obtain ⟨rfl, -⟩ := h
          exact Or.inr ⟨rfl, q, t, ps, rfl⟩
        · rw [StepResult.cont.injEq] at h
          obtain ⟨rfl, -⟩ := h
          exact Or.inl rfl
      | GetProvidersSuccess q k ps =>
        simp only [stepL, handleKadEvent] at h
        split_ifs at h with h1
        rw [StepResult.cont.injEq] at h
        obtain ⟨rfl, -⟩ := h
        exact Or.inl rfl
      | QueryFailed q =>
        simp only [stepL, handleKadEvent] at h
        split_ifs at h with h1 h2
        rw [StepResult.cont.injEq] at h
        obtain ⟨rfl, -⟩ := h
        exact Or.inl rfl
      | RoutingTableUpdate ps =>
        simp only [stepL, handleKadEvent, StepResult.cont.injEq] at h
        obtain ⟨rfl, -⟩ := h
        exact Or.inl rfl
      | OtherKad =>
        simp only [stepL, handleKadEvent, StepResult.cont.injEq] at h
        obtain ⟨rfl, -⟩ := h
        exact Or.inl rfl

/-- One instrumented step preserves the pending-resolution invariant for
well-formed events. -/
theorem pendingInvG_gstep (args : Args) (rand : Nat → PeerId) (g : GRun)
    (e : LoopEvent) (hg : PendingInvG g) (hwf : wfEvent g e = true) :
    PendingInvG (gstep args rand g e) := by
  cases hrs : g.rs with
  | running s =>
    have hInv : PendingInv s g.resolved := by
      simp only [PendingInvG, hrs] at hg
      exact hg
    simp only [gstep, hrs]
    cases hsr : stepRun args rand (RunState.running s) e with
    | running s1 =>
      have hL : ∃ cmds, stepL args rand s e = StepResult.cont s1 cmds := by
        simp only [stepRun] at hsr
        cases hL0 : stepL args rand s e with
        | cont a b =>
          simp only [hL0] at hsr
          injection hsr with hh
          subst hh
          exact ⟨b, rfl⟩
        | success a b =>
          simp only [hL0] at hsr
          exact RunState.noConfusion hsr
        | failure a b =>
          simp only [hL0] at hsr
          exact RunState.noConfusion hsr
      obtain ⟨cmds, hL⟩ := hL
      have hnext := stepL_next_cases args rand s e s1 cmds hL
      simp only [PendingInvG]
      cases e with
      | net oe =>
        have hnn : s1.next_query_id = s.next_query_id := by
          rcases hnext with h | ⟨-, q, t, ps, habs⟩
          · exact h
          · exact LoopEvent.noConfusion habs
        exact pendingInv_carry s s1 g.resolved hInv hnn
      | kad oe =>
        cases oe with
        | none =>
          simp only [stepL, handleKadEvent] at hL
          exact StepResult.noConfusion hL
        | some ev =>
          cases hrt : resolutionTarget ev with
          | none =>
            have hnn : s1.next_query_id = s.next_query_id := by
              rcases hnext with h | ⟨-, q, t, ps, habs⟩
              · exact h
              · injection habs with h1
                injection h1 with h2
                subst h2
                simp [resolutionTarget] at hrt
            simp only [hrt]
            exact pendingInv_carry s s1 g.resolved hInv hnn
          | some q =>
            have hwf2 : q < s.next_query_id ∧ q ∉ g.resolved := by
              simp only [wfEvent, hrs, hrt, Bool.and_eq_true, decide_eq_true_eq] at hwf
              exact hwf
            simp only [hrt]
            rcases hnext with h | ⟨h, -⟩
            · exact pendingInv_carry s s1 _
                (pendingInv_extend s g.resolved q hInv hwf2.1) h
            · exact pendingInv_issue s s1 g.resolved q hInv hwf2.1 hwf2.2 h
    | succeeded a b =>
      simp only [PendingInvG]
    | failed a b =>
      simp only [PendingInvG]
  | succeeded a b =>
    have hge : gstep args rand g e = g := by
      simp [gstep, hrs]
    rw [hge]
    exact hg
  | failed a b =>
    have hge : gstep args rand g e = g := by
      simp [gstep, hrs]
    rw [hge]
    exact hg

/-- The initial instrumented state satisfies the invariant: exactly the one
command issued by `init` (identifier 0) is pending. -/
theorem pendingInvG_ginit (args : Args) (rand : Nat → PeerId) :
    PendingInvG (ginit args rand) := by
  show PendingInv (init args rand).1 []
  have h1 : (init args rand).1.next_query_id = 1 := by
    simp only [init]
    split <;> rfl
  exact ⟨by omega, fun q hq => absurd hq (List.not_mem_nil q),
    fun q hq hn => by omega⟩

/-- The invariant holds after any well-formed instrumented run. -/
theorem pendingInvG_grun (args : Args) (rand : Nat → PeerId) :
    ∀ (evs : List LoopEvent) (g : GRun), PendingInvG g →
      WFtrace args rand g evs = true → PendingInvG (grun args rand g evs) := by
  intro evs
  induction evs with
  | nil =>
    intro g hg _
    exact hg
  | cons e rest ih =>
    intro g hg hwf
    rw [WFtrace, Bool.and_eq_true] at hwf
    exact ih (gstep args rand g e) (pendingInvG_gstep args rand g e hg hwf.1) hwf.2

/-- A duplicate-free list whose elements are all equal has at most one
element. -/
theorem length_le_one_of_nodup_all_eq {l : List Nat} (hnd : l.Nodup) (a : Nat)
    (h : ∀ x ∈ l, x = a) : l.length ≤ 1 := by
  match l with
  | [] => simp
  | [x] => simp
  | x :: y :: t =>
    exfalso
    have hx := h x (by simp)
    have hy := h y (by simp)
    rw [List.nodup_cons] at hnd
    apply hnd.1
    have hxy : x = y := by rw [hx, hy]
    rw [hxy]
    exact List.mem_cons_self y t

/-- Under the invariant, at most one query identifier is pending. -/
theorem pendingList_length_le_one (g : GRun) (hg : PendingInvG g) :
    (pendingList g).length ≤ 1 := by
  cases hrs : g.rs with
  | running s =>
    have hInv : PendingInv s g.resolved := by
      simp only [PendingInvG, hrs] at hg
      exact hg
    have hpl : pendingList g = (List.range s.next_query_id).filter
        (fun q => decide (q ∉ g.resolved)) := by
      simp [pendingList, hrs]
    rw [hpl]
    apply length_le_one_of_nodup_all_eq
        ((List.nodup_range s.next_query_id).filter _) (s.next_query_id - 1)
    intro x hx
    rw [List.mem_filter, List.mem_range, decide_eq_true_eq] at hx
    exact hInv.2.2 x hx.1 hx.2
  | succeeded a b => simp [pendingList, hrs]
  | failed a b => simp [pendingList, hrs]

/-- A continuing step never clears the GET_PROVIDERS query field: once set,
it stays set. -/
theorem stepL_gp_isSome (args : Args) (rand : Nat → PeerId)
    (s : OrchestratorState) (e : LoopEvent) (s1 : OrchestratorState)
    (cmds : List (Nat × Command))
    (h : stepL args rand s e = StepResult.cont s1 cmds)
    (hs : s.get_providers_query.isSome = true) :
    s1.get_providers_query.isSome = true := by
  cases e with
  | net oe =>
    cases oe with
    | none =>
      simp only [stepL, handleNetEvent, StepResult.cont.injEq] at h
      obtain ⟨rfl, -⟩ := h
      exact hs
    | some ne =>
      cases ne with
      | ConnectionEstablished p =>
        simp only [stepL, handleNetEvent, StepResult.cont.injEq] at h
        obtain ⟨rfl, -⟩ := h
        exact hs
      | OtherNet =>
        simp only [stepL, handleNetEvent, StepResult.cont.injEq] at h
        obtain ⟨rfl, -⟩ := h
        exact hs
  | kad oe =>
    cases oe with
    | none =>
      simp only [stepL, handleKadEvent] at h
      exact StepResult.noConfusion h
    | some ev =>
      cases ev with
      | FindNodeSuccess q t ps =>
        simp only [stepL, handleKadEvent] at h
        split_ifs at h with h1 h2
        · rw [StepResult.cont.injEq] at h
          obtain ⟨rfl, -⟩ := h
          exact hs
        · rw [StepResult.cont.injEq] at h
          obtain ⟨rfl, -⟩ := h
          rfl
        · rw [StepResult.cont.injEq] at h
          obtain ⟨rfl, -⟩ := h
          exact hs
      | GetProvidersSuccess q k ps =>
        simp only [stepL, handleKadEvent] at h
        split_ifs at h with h1
        rw [StepResult.cont.injEq] at h
        obtain ⟨rfl, -⟩ := h
        exact hs
      | QueryFailed q =>
        simp only [stepL, handleKadEvent] at h
        split_ifs at h with h1 h2
        rw [StepResult.cont.injEq] at h
        obtain ⟨rfl, -⟩ := h
        exact hs
      | RoutingTableUpdate ps =>
        simp only [stepL, handleKadEvent, StepResult.cont.injEq] at h
        obtain ⟨rfl, -⟩ := h
        exact hs
      | OtherKad =>
        simp only [stepL, handleKadEvent, StepResult.cont.injEq] at h
        obtain ⟨rfl, -⟩ := h
        exact hs

/-- An instrumented run from a terminated state stays put. -/
theorem grun_stuck (args : Args) (rand : Nat → PeerId) :
    ∀ (evs : List LoopEvent) (g : GRun),
      (∀ s, g.rs ≠ RunState.running s) → grun args rand g evs = g := by
  intro evs
  induction evs with
  | nil =>
    intro g _
    rfl
  | cons e rest ih =>
    intro g hg
    have hge : gstep args rand g e = g := by
      cases hrs : g.rs with
      | running s => exact absurd hrs (hg s)
      | succeeded a b => simp [gstep, hrs]
      | failed a b => simp [gstep, hrs]
    calc grun args rand g (e :: rest)
        = grun args rand (gstep args rand g e) rest := rfl
      _ = grun args rand g rest := by rw [hge]
      _ = g := ih g hg

/-- Along any instrumented run that is still in progress, once the
GET_PROVIDERS query field is set it remains set (the phase transition is
irreversible). -/
theorem grun_gp_mono (args : Args) (rand : Nat → PeerId) :
    ∀ (evs : List LoopEvent) (g : GRun) (sA sB : OrchestratorState),
      g.rs = RunState.running sA → (grun args rand g evs).rs = RunState.running sB →
      sA.get_providers_query.isSome = true →
      sB.get_providers_query.isSome = true := by
  intro evs
  induction evs with
  | nil =>
    intro g sA sB hA hB hsome
    simp only [grun, List.foldl_nil] at hB
    rw [hA] at hB
    injection hB with hh
    subst hh
    exact hsome
  | cons e rest ih =>
    intro g sA sB hA hB hsome
    have hB2 : (grun args rand (gstep args rand g e) rest).rs
        = RunState.running sB := hB
    have hgrs : (gstep args rand g e).rs = stepRun args rand (RunState.running sA) e := by
      simp [gstep, hA]
    cases hsr : stepRun args rand (RunState.running sA) e with
    | running s2 =>
      have h2some : s2.get_providers_query.isSome = true := by
        simp only [stepRun] at hsr
        cases hL : stepL args rand sA e with
        | cont a b =>
          simp only [hL] at hsr
          injection hsr with hh
          subst hh
          exact stepL_gp_isSome args rand sA e a b hL hsome
        | success a b =>
          simp only [hL] at hsr
          exact RunState.noConfusion hsr
        | failure a b =>
          simp only [hL] at hsr
          exact RunState.noConfusion hsr
      exact ih (gstep args rand g e) s2 sB (by rw [hgrs, hsr]) hB2 h2some
    | succeeded a b =>
      have hstuck : grun args rand (gstep args rand g e) rest = gstep args rand g e := by
        apply grun_stuck
        intro s hc
        rw [hgrs, hsr] at hc
        exact RunState.noConfusion hc
      rw [hstuck] at hB2
      rw [hgrs, hsr] at hB2
      exact RunState.noConfusion hB2
    | failed a b =>
      have hstuck : grun args rand (gstep args rand g e) rest = gstep args rand g e := by
        apply grun_stuck
        intro s hc
        rw [hgrs, hsr] at hc
        exact RunState.noConfusion hc
      rw [hstuck] at hB2
      rw [hgrs, hsr] at hB2
      exact RunState.noConfusion hB2

/-- Counterexample to C2: for an arbitrary event sequence the "at most one
query identifier pending resolution" invariant fails.  From `init exArgs`,
a `FindNodeSuccess` for query 0 activates GET_PROVIDERS query 1; a
duplicate of the same `FindNodeSuccess` still matches the retained
`find_node_query` field and makes the loop issue a second `get_providers`
command (query 2).  Query 1 never receives a resolution event, so
identifiers 1 and 2 are pending resolution simultaneously. -/
theorem c2_counterexample :
    pendingList (grun exArgs exRand (ginit exArgs exRand)
        [LoopEvent.kad (some (KademliaEvent.FindNodeSuccess 0 0 [])),
         LoopEvent.kad (some (KademliaEvent.FindNodeSuccess 0 0 []))]) = [1, 2] ∧
    ¬((pendingList (grun exArgs exRand (ginit exArgs exRand)
        [LoopEvent.kad (some (KademliaEvent.FindNodeSuccess 0 0 [])),
         LoopEvent.kad (some (KademliaEvent.FindNodeSuccess 0 0 []))])).length ≤ 1) := by
  refine ⟨by decide, by decide⟩

/-- C2 amended: provided the DHT layer delivers at most one resolution
event per issued query and only for queries already issued (the
well-formedness `WFtrace`; duplicate resolutions can create a second
pending GET_PROVIDERS query, see the counterexample), at most one query
identifier is pending resolution at every point of a run.  Independently of
that assumption, the transition from the prepopulating phase to the
awaiting-providers phase (the GET_PROVIDERS field becoming set) is
irreversible — once set after a prefix of the run it is still set after any
extension — and hence happens at most once. -/
theorem c2_amended_single_pending (args : Args) (rand : Nat → PeerId)
    (evsA evsB : List LoopEvent) :
    (WFtrace args rand (ginit args rand) (evsA ++ evsB) = true →
      (pendingList (grun args rand (ginit args rand) (evsA ++ evsB))).length ≤ 1) ∧
    (∀ sA sB, (grun args rand (ginit args rand) evsA).rs = RunState.running sA →
      (grun args rand (ginit args rand) (evsA ++ evsB)).rs = RunState.running sB →
      sA.get_providers_query.isSome = true →
      sB.get_providers_query.isSome = true) := by
  constructor
  · intro hwf
    exact pendingList_length_le_one _
      (pendingInvG_grun args rand (evsA ++ evsB) (ginit args rand)
        (pendingInvG_ginit args rand) hwf)
  · intro sA sB hA hB hsome
    have happ : grun args rand (ginit args rand) (evsA ++ evsB)
        = grun args rand (grun args rand (ginit args rand) evsA) evsB := by
      simp [grun, List.foldl_append]
    rw [happ] at hB
    exact grun_gp_mono args rand evsB _ sA sB hA hB hsome

/-- Witness for the amended C2 on a concrete well-formed run: one
prepopulating success then an unrelated logged event; at most one
identifier is pending, and the GET_PROVIDERS field set after the prefix is
still set at the end. -/
theorem c2_witness :
    (pendingList (grun exArgs exRand (ginit exArgs exRand)
        ([LoopEvent.kad (some (KademliaEvent.FindNodeSuccess 0 0 []))] ++
         [LoopEvent.kad (some KademliaEvent.OtherKad)]))).length ≤ 1 ∧
    exS1.get_providers_query.isSome = true := by
  have h := c2_amended_single_pending exArgs exRand
      [LoopEvent.kad (some (KademliaEvent.FindNodeSuccess 0 0 []))]
      [LoopEvent.kad (some KademliaEvent.OtherKad)]
  exact ⟨h.1 (by decide), h.2 exS1 exS1 (by decide) (by decide) (by decide)⟩
